import Mathlib

/-!
Verification of the `httptrace` crate: a shallow embedding of the
connection-establishment pipeline (DNS resolver front-end, staggered TCP
connection racer, TLS/ALPN protocol selection, Recorder observation hooks,
StatsRecorder aggregation) together with the request/body data model and the
error taxonomy, with theorems settling the specification claims.

Machine integers are modelled as `Nat`; wall-clock instants and durations are
abstract `Nat` ticks; `Instant::duration_since` (which saturates at zero) is
truncated `Nat` subtraction.  Fallible Rust code returns `Except`.
-/

deriving instance DecidableEq for Except

namespace Httptrace

/-- An IP address, abstracted to a token with decidable equality
(`std::net::IpAddr`). -/
abbrev IpAddr := Nat

/-- `std::net::SocketAddr`: an `(IP, port)` pair. -/
structure SocketAddr where
  ip : IpAddr
  port : Nat
deriving DecidableEq, Repr

/-- `SocketAddr::to_string()`, used as the per-destination key in
`StatsRecorder`. -/
def SocketAddr.key (a : SocketAddr) : String :=
  toString a.ip ++ ":" ++ toString a.port

/-- The error enum of `src/error.rs`.  Variants that wrap a foreign error
(`#[from]`) carry that error's display string. -/
inductive Error where
  | Unknown
  | Uri (msg : String)
  | Resolve (msg : String)
  | Io (msg : String)
  | Timeout (msg : String)
  | Rustls (msg : String)
  | InvalidDnsName (msg : String)
  | Hyper (msg : String)
  | Http (msg : String)
  | HttpInvalidHeader (msg : String)
  | HostRequired
  | EmptyResolveResult
  | AllTcpConnectFailed
  | TcpDeadlineExceeded
  | Body (msg : String)
  | BodyTimeout
deriving DecidableEq, Repr

/-- The `Display` implementation derived by `thiserror` from the
`#[error("...")]` attributes in `src/error.rs`. -/
def Error.display : Error → String
  | .Unknown => "unknown error"
  | .Uri m => "uri parse error " ++ m
  | .Resolve m => "resolve error " ++ m
  | .Io m => "io error " ++ m
  | .Timeout m => "timeout error " ++ m
  | .Rustls m => "rustls error " ++ m
  | .InvalidDnsName m => "invalid dns name error " ++ m
  | .Hyper m => "hyper error " ++ m
  | .Http m => "http error " ++ m
  | .HttpInvalidHeader m => "http invalid header value " ++ m
  | .HostRequired => "host required"
  | .EmptyResolveResult => "empty resolve result"
  | .AllTcpConnectFailed => "all tcp connect failed"
  | .TcpDeadlineExceeded => "tcp deadline exceeded"
  | .Body m => "body error: " ++ m
  | .BodyTimeout => "body timeout"

/-- The stable external string the specification's error taxonomy assigns to
each error kind. -/
def Error.taxonomyString : Error → String
  | .Unknown => "unknown"
  | .Uri _ => "uri parse error"
  | .Resolve _ => "resolve error"
  | .Io _ => "io error"
  | .Timeout _ => "timeout error"
  | .Rustls _ => "rustls error"
  | .InvalidDnsName _ => "invalid dns name error"
  | .Hyper _ => "hyper error"
  | .Http _ => "http error"
  | .HttpInvalidHeader _ => "http invalid header value"
  | .HostRequired => "host required"
  | .EmptyResolveResult => "empty resolve result"
  | .AllTcpConnectFailed => "all tcp connect failed"
  | .TcpDeadlineExceeded => "tcp deadline exceeded"
  | .Body _ => "body error"
  | .BodyTimeout => "body timeout"

/-- `http_body::SizeHint`: a lower bound and an optional upper bound on the
remaining byte length of a streaming body. -/
structure SizeHint where
  lower : Nat
  upper : Option Nat
deriving DecidableEq, Repr

/-- `http_body::SizeHint::exact()`: the exact size when the bounds agree. -/
def SizeHint.exact (h : SizeHint) : Option Nat :=
  if h.upper = some h.lower then some h.lower else none

/-- `Body` of `src/body.rs`.  `Reuseable` holds an immutable byte block;
`Streaming` abstracts the boxed asynchronous frame source to the one
observable the claims need, its declared size hint. -/
inductive Body where
  | reuseable (chunk : List Nat)
  | streaming (hint : SizeHint)
deriving DecidableEq, Repr

/-- `Body::try_clone` (src/body.rs lines 144-149). -/
def Body.tryClone : Body → Option Body
  | .reuseable chunk => some (.reuseable chunk)
  | .streaming _ => none

/-- `Body::content_length` (src/body.rs lines 155-160). -/
def Body.contentLength : Body → Option Nat
  | .reuseable bytes => some bytes.length
  | .streaming body => body.exact

/-- A URI scheme (`http::uri::Scheme`). -/
inductive Scheme where
  | http
  | https
  | other (s : String)
deriving DecidableEq, Repr

/-- `http::Version`. -/
inductive Version where
  | http09
  | http10
  | http11
  | http2
  | http3
deriving DecidableEq, Repr

/-- `http::Uri`, restricted to the components the client inspects: scheme,
host and explicit port. -/
structure Uri where
  scheme : Option Scheme
  host : Option String
  port : Option Nat
deriving DecidableEq, Repr

/-- A header value (`http::HeaderValue`); the client only ever stores and
compares UTF-8 string values. -/
abbrev HeaderValue := String

/-- `http::HeaderMap` as an association list keyed by the lowercase header
name. -/
abbrev HeaderMap := List (String × HeaderValue)

/-- `HeaderMap::get`: the first value stored under the name. -/
def headerGet (m : HeaderMap) (k : String) : Option HeaderValue :=
  m.lookup k

/-- `HeaderMap::insert`: replace every value stored under the name. -/
def headerInsert (m : HeaderMap) (k : String) (v : HeaderValue) : HeaderMap :=
  (k, v) :: m.filter (fun p => p.1 != k)

/-- A handle to a boxed `dyn Recorder`; only its presence is observable to
the data-model claims. -/
abbrev RecorderId := Nat

/-- `Request` of `src/request.rs`. -/
structure Request where
  method : String
  uri : Uri
  headers : HeaderMap
  body : Option Body
  timeout : Option Nat
  version : Version
  recorder : Option RecorderId
deriving DecidableEq, Repr

/-- `Request::default()`: `Method::default()` is GET, `Uri::default()` is
`/` (no scheme, host or port), `Version::default()` is HTTP/1.1, and every
`Option` field is `None`. -/
def Request.default : Request :=
  { method := "GET", uri := ⟨none, none, none⟩, headers := [], body := none,
    timeout := none, version := .http11, recorder := none }

/-- `Request::new(method, uri)` (src/request.rs lines 25-31): the given
method and uri, everything else from `Default`. -/
def Request.new (method : String) (uri : Uri) : Request :=
  { Request.default with method := method, uri := uri }

/-- `Request::port` (src/request.rs lines 124-132): the URI's explicit port,
else 443 for HTTPS and 80 otherwise. -/
def Request.port (r : Request) : Nat :=
  match r.uri.port with
  | some p => p
  | none => if r.uri.scheme = some .https then 443 else 80

/-- `Request::try_clone` (src/request.rs lines 107-118): clone the body if
possible (`None` if it is streaming), then rebuild via `Request::new` and
copy timeout, headers and version.  The recorder is not copied. -/
def Request.tryClone (r : Request) : Option Request :=
  match r.body with
  | some body =>
    match body.tryClone with
    | some b =>
      some { Request.new r.method r.uri with
              timeout := r.timeout, headers := r.headers,
              version := r.version, body := some b }
    | none => none
  | none =>
    some { Request.new r.method r.uri with
            timeout := r.timeout, headers := r.headers,
            version := r.version, body := none }

/-- Lowercase name of the `Host` header (`http::header::HOST`). -/
def hostHeader : String := "host"

/-- Lowercase name of the `User-Agent` header
(`http::header::USER_AGENT`). -/
def userAgentHeader : String := "user-agent"

/-- The fixed browser-like `User-Agent` literal injected by
`ClientRef::execute` (src/client.rs line 211). -/
def defaultUserAgent : String :=
  "Mozilla/5.0 (Windows NT 10.0; Win64; x64) AppleWebKit/537.36 (KHTML, like Gecko) Chrome/137.0.0.0 Safari/537.36"

/-- Whether a character may appear in an `http::HeaderValue`: every byte
must be ≥ 32 and ≠ 127, or be a horizontal tab (non-ASCII characters encode
to bytes ≥ 0x80, all permitted, so the check lifts to characters). -/
def isValidHeaderChar (c : Char) : Bool :=
  c == '\t' || (32 ≤ c.toNat && c.toNat != 127)

/-- `str::parse::<HeaderValue>()` as used for the injected `Host` value
(src/client.rs line 208); failure becomes `Error::HttpInvalidHeader`
through `?`. -/
def parseHeaderValue (s : String) : Except Error HeaderValue :=
  if s.data.all isValidHeaderChar then .ok s
  else .error (.HttpInvalidHeader s)

/-- The automatic header-injection block of `ClientRef::execute`
(src/client.rs lines 203-213): skipped entirely when
`disable_auto_set_header` is set; otherwise the URI host is required
(`ok_or(EmptyResolveResult)`), `Host` is inserted when absent, and the
default `User-Agent` is inserted when absent. -/
def autoSetHeaders (disableAuto : Bool) (req : Request) : Except Error Request :=
  if disableAuto then .ok req
  else
    match req.uri.host with
    | none => .error .EmptyResolveResult
    | some host =>
      let step1 : Except Error Request :=
        if (headerGet req.headers hostHeader).isNone then
          match parseHeaderValue host with
          | .ok v => .ok { req with headers := headerInsert req.headers hostHeader v }
          | .error e => .error e
        else .ok req
      match step1 with
      | .error e => .error e
      | .ok req1 =>
        .ok (if (headerGet req1.headers userAgentHeader).isNone then
              { req1 with headers := headerInsert req1.headers userAgentHeader defaultUserAgent }
             else req1)

/-- `FALLBACK_INTERVAL` (src/client.rs line 502): the staggered-start
interval of the TCP racer, in seconds. -/
def FALLBACK_INTERVAL : Nat := 3

/-- `FAR_INTERVAL` (src/client.rs line 504): the effectively-infinite
duration standing in for an unset timeout, in seconds. -/
def FAR_INTERVAL : Nat := 86400 * 365 * 30

/-- `Alpn` (src/client.rs lines 485-490). -/
inductive Alpn where
  | http1
  | http2
  | http3
deriving DecidableEq, Repr

/-- The `Display` implementation of `Alpn` (src/client.rs lines 492-500):
the ALPN wire tokens. -/
def Alpn.toWire : Alpn → String
  | .http1 => "http/1.1"
  | .http2 => "h2"
  | .http3 => "h3"

/-- `ClientRef` (src/client.rs lines 62-75): the frozen client
configuration.  The hickory resolver handle is abstracted away; its lookup
outcome enters through the environment. -/
structure ClientRef where
  local_addr : Option IpAddr
  dns_overrides : List (String × List IpAddr)
  skip_tls_verify : Bool
  alpn_protocols : Option (List Alpn)
  disable_auto_set_header : Bool
  prefer_ipv6 : Bool
  dns_timeout : Nat
  tcp_timeout : Nat
  tls_timeout : Nat
deriving DecidableEq, Repr

/-- The outcome a spawned connect attempt sends over the mpsc channel:
either a live `TcpStream` (abstracted to a handle) or a per-attempt
error. -/
inductive TcpOutcome where
  | ok (stream : Nat)
  | err (e : Error)
deriving DecidableEq, Repr

/-- One firing of a `tokio::select!` arm in the racer's coordinator loop
(src/client.rs lines 264-310).  The schedule of firings is the
environment: `deadline` is the `sleep_until(deadline)` arm, `timerFired`
the `sleep_until(timer)` arm, `recv` a `(dest, outcome)` tuple received on
the channel, and `channelClosed` `rx.recv()` returning `None`. -/
inductive TcpEvent where
  | deadline
  | timerFired
  | recv (dest : SocketAddr) (outcome : TcpOutcome)
  | channelClosed
deriving DecidableEq, Repr

/-- The negotiated state of an established TLS stream, as inspected through
`stream.get_ref().1`: the ALPN protocol bytes and the protocol-version
string. -/
structure TlsInfo where
  alpnProtocol : Option (List Nat)
  protocolVersion : Option String
deriving DecidableEq, Repr

/-- One invocation of a `Recorder` hook, in the order the executor fires
them. -/
inductive Hook where
  | dnsStart
  | dnsDone (result : Except String (List SocketAddr × Bool))
  | tcpStart (dest : SocketAddr)
  | tcpDone (dest : SocketAddr) (result : Except String Nat)
  | tlsStart
  | tlsDone (result : Except String TlsInfo)
  | requestStart
deriving DecidableEq, Repr

/-- The `on_tcp_done` invocation for an outcome: the error side carries the
error's display string (src/client.rs line 297). -/
def tcpDoneHook (dest : SocketAddr) : TcpOutcome → Hook
  | .ok s => .tcpDone dest (.ok s)
  | .err e => .tcpDone dest (.error e.display)

/-- The coordinator loop of `ClientRef::tcp_connect` (src/client.rs lines
264-310), driven by a schedule of select-arm firings.  State: the remaining
address iterator and whether the sender handle is still held (`tx_opt`).
`none` as first component means the loop is still waiting when the schedule
ends.  The `deadline` arm breaks with `TcpDeadlineExceeded`; the `timer`
arm pulls the next address, fires `on_tcp_start` and spawns an attempt
(or, when exhausted, drops the sender); a received successful outcome
breaks with the transport after firing `on_tcp_done`; a received error
fires `on_tcp_done` and continues; a closed channel breaks with
`AllTcpConnectFailed`. -/
def tcpLoop (hasRecorder : Bool) :
    List TcpEvent → List SocketAddr → Bool →
      Option (Except Error Nat) × List Hook
  | [], _, _ => (none, [])
  | .deadline :: _, _, _ => (some (.error .TcpDeadlineExceeded), [])
  | .timerFired :: rest, dest :: remaining, txAlive =>
    let next := tcpLoop hasRecorder rest remaining txAlive
    (next.1, (if hasRecorder then [Hook.tcpStart dest] else []) ++ next.2)
  | .timerFired :: rest, [], _ => tcpLoop hasRecorder rest [] false
  | .recv dest (.ok s) :: _, _, _ =>
    (some (.ok s), if hasRecorder then [tcpDoneHook dest (.ok s)] else [])
  | .recv dest (.err e) :: rest, addrs, txAlive =>
    let next := tcpLoop hasRecorder rest addrs txAlive
    (next.1, (if hasRecorder then [tcpDoneHook dest (.err e)] else []) ++ next.2)
  | .channelClosed :: _, _, _ => (some (.error .AllTcpConnectFailed), [])

/-- `ClientRef::tcp_connect` (src/client.rs lines 249-313): run the
coordinator loop over the given schedule, starting with the full address
list and a live sender handle.  `local_addr`, `prefer_ipv6` and
`tcp_timeout` shape the spawned attempts and the deadline arm, which the
schedule abstracts. -/
def ClientRef.tcp_connect (_c : ClientRef) (req : Request)
    (addrs : List SocketAddr) (events : List TcpEvent) :
    Option (Except Error Nat) × List Hook :=
  tcpLoop req.recorder.isSome events addrs true

/-- `ClientRef::_dns_resolve` (src/client.rs lines 333-356).  `lookup` is
the outcome of `timeout(dns_timeout, resolver.lookup_ip(host))`: the
resolved IPs, a resolver error, or `Error::Timeout` on elapse. -/
def ClientRef.dnsResolveInner (c : ClientRef) (req : Request)
    (lookup : Except Error (List IpAddr)) :
    Except Error (List SocketAddr × Bool) :=
  match req.uri.host with
  | none => .error .HostRequired
  | some host =>
    let port := req.port
    let fallthrough : Except Error (List SocketAddr × Bool) :=
      match lookup with
      | .error e => .error e
      | .ok ips =>
        let addrs := ips.map (fun ip => SocketAddr.mk ip port)
        if addrs.isEmpty then .error .EmptyResolveResult
        else .ok (addrs, false)
    match c.dns_overrides.lookup host with
    | some ips =>
      if ips.isEmpty then fallthrough
      else .ok (ips.map (fun ip => SocketAddr.mk ip port), true)
    | none => fallthrough

/-- `ClientRef::dns_resolve` (src/client.rs lines 226-247): the host is
required before the recorder fires; `on_dns_start` and `on_dns_done`
surround the inner resolution, the done hook carrying the result with the
error mapped to its display string. -/
def ClientRef.dns_resolve (c : ClientRef) (req : Request)
    (lookup : Except Error (List IpAddr)) :
    Except Error (List SocketAddr × Bool) × List Hook :=
  match req.uri.host with
  | none => (.error .HostRequired, [])
  | some _ =>
    let ret := c.dnsResolveInner req lookup
    if req.recorder.isSome then
      (ret, [Hook.dnsStart,
        Hook.dnsDone (match ret with
          | .ok v => .ok v
          | .error e => .error e.display)])
    else (ret, [])

/-- `ClientRef::tls_handshake` (src/client.rs lines 315-331): `on_tls_start`
and `on_tls_done` surround `_tls_handshake`, whose outcome (root store,
configuration, DNS-name conversion and timed connect) is
environment-determined. -/
def ClientRef.tls_handshake (_c : ClientRef) (req : Request)
    (tls : Except Error TlsInfo) : Except Error TlsInfo × List Hook :=
  if req.recorder.isSome then
    (tls, [Hook.tlsStart,
      Hook.tlsDone (match tls with
        | .ok info => .ok info
        | .error e => .error e.display)])
  else (tls, [])

/-- `String::from_utf8_lossy`, byte-wise: an ASCII byte decodes to itself,
any byte ≥ 0x80 to U+FFFD.  True lossy decoding groups multi-byte
sequences, but both maps agree on whether the result equals a pure-ASCII
literal such as `"h2"`, its only use in the source. -/
def fromUtf8Lossy (bytes : List Nat) : String :=
  String.mk (bytes.map (fun b => if b < 128 then Char.ofNat b else '�'))

/-- The `is_h2` test of `ClientRef::tls_send_request` (src/client.rs lines
456-462): the stream's negotiated ALPN protocol decodes exactly to
`"h2"`. -/
def isH2 (alpnProtocol : Option (List Nat)) : Bool :=
  match alpnProtocol with
  | some alpn => fromUtf8Lossy alpn == "h2"
  | none => false

/-- The response as far as the claims observe it: its HTTP version, set by
hyper from the connection framing. -/
structure Response where
  version : Version
deriving DecidableEq, Repr

/-- `ClientRef::tls_send_request` (src/client.rs lines 451-482): an HTTP/2
handshake on the TLS transport when `is_h2`, else HTTP/1.1.  The hyper
handshake and exchange are assumed to succeed, with the HTTP/1.1 peer
answering with a version-1.1 status line. -/
def tlsSendRequest (info : TlsInfo) : Response :=
  if isH2 info.alpnProtocol then { version := .http2 }
  else { version := .http11 }

/-- `ClientRef::tcp_send_h1_request` (src/client.rs lines 436-449): an
HTTP/1.1 handshake directly on the TCP stream, under the same exchange
assumptions. -/
def tcpSendH1Request : Response := { version := .http11 }

/-- The environment of one execution: the DNS lookup outcome, the racer's
select schedule, and the TLS handshake outcome. -/
structure Env where
  lookup : Except Error (List IpAddr)
  tcpEvents : List TcpEvent
  tls : Except Error TlsInfo
deriving Repr

/-- `ClientRef::execute` (src/client.rs lines 193-224): resolve, race TCP,
inject the automatic headers, then perform TLS + HTTP/2-or-1.1 when the
scheme is HTTPS and plain HTTP/1.1 otherwise, concatenating the recorder
hooks each stage fires.  `none` as first component means the execution is
still pending when the racer's schedule ends; the outer
`timeout(request.timeout)` wrapper is the environment's concern and does
not fire hooks. -/
def ClientRef.execute (c : ClientRef) (req : Request) (env : Env) :
    Option (Except Error Response) × List Hook :=
  match c.dns_resolve req env.lookup with
  | (.error e, dnsHooks) => (some (.error e), dnsHooks)
  | (.ok (addrs, _), dnsHooks) =>
    match c.tcp_connect req addrs env.tcpEvents with
    | (none, tcpHooks) => (none, dnsHooks ++ tcpHooks)
    | (some (.error e), tcpHooks) => (some (.error e), dnsHooks ++ tcpHooks)
    | (some (.ok _stream), tcpHooks) =>
      match autoSetHeaders c.disable_auto_set_header req with
      | .error e => (some (.error e), dnsHooks ++ tcpHooks)
      | .ok req2 =>
        if req.uri.scheme = some Scheme.https then
          match c.tls_handshake req2 env.tls with
          | (.error e, tlsHooks) =>
            (some (.error e), dnsHooks ++ tcpHooks ++ tlsHooks)
          | (.ok info, tlsHooks) =>
            (some (.ok (tlsSendRequest info)), dnsHooks ++ tcpHooks ++ tlsHooks)
        else
          (some (.ok tcpSendH1Request), dnsHooks ++ tcpHooks)

/-- Whether a select-arm firing makes the coordinator loop break out:
the deadline arm, a successful outcome, or channel closure. -/
def TcpEvent.isBreaking : TcpEvent → Bool
  | .deadline => true
  | .channelClosed => true
  | .recv _ (.ok _) => true
  | .recv _ (.err _) => false
  | .timerFired => false

/-- `StatRecord` (src/stats.rs lines 276-281): recorded instants and
outcome of one phase. -/
structure StatRecord where
  start : Option Nat
  done : Option Nat
  result : Option (Except String String)
deriving DecidableEq, Repr

/-- `StatRecord::start()` (src/stats.rs lines 283-289): the recorded start,
or effectively infinitely far in the future; `now` stands for the
`Instant::now()` taken at the call. -/
def StatRecord.startOr (r : StatRecord) (now : Nat) : Nat :=
  r.start.getD (now + FAR_INTERVAL)

/-- `Stat` (src/stats.rs lines 23-28). -/
structure Stat where
  duration : Nat
  extend : Option String
  error : Option String
deriving DecidableEq, Repr

/-- `Stats` (src/stats.rs lines 14-21). -/
structure Stats where
  dns_stats : Stat
  tcp_stats : Option (List Stat)
  tls_stats : Option Stat
  request_stats : Option Stat
  total_duration : Nat
deriving DecidableEq, Repr

/-- `StatsRecorderInner` (src/stats.rs lines 265-274); the per-destination
`HashMap` is an association list keyed by `SocketAddr::to_string()`. -/
structure StatsRecorderInner where
  dns_stat : StatRecord
  dns_hit_cache : Bool
  dns_name_servers : String
  tcp_stats : Option (List (String × StatRecord))
  tls_stat : Option StatRecord
  request_stat : Option StatRecord
deriving DecidableEq, Repr

/-- `StatsRecorderInner::default()`. -/
def StatsRecorderInner.init : StatsRecorderInner :=
  { dns_stat := ⟨none, none, none⟩, dns_hit_cache := false,
    dns_name_servers := "", tcp_stats := none, tls_stat := none,
    request_stat := none }

/-- `HashMap::insert`: replace the value stored under the key. -/
def assocInsert {α : Type} (m : List (String × α)) (k : String) (v : α) :
    List (String × α) :=
  (k, v) :: m.filter (fun p => p.1 != k)

/-- `HashMap::get_mut` followed by a mutation: update the value under the
key when present, leave the map unchanged otherwise. -/
def assocModify {α : Type} (m : List (String × α)) (k : String) (f : α → α) :
    List (String × α) :=
  m.map (fun p => if p.1 = k then (p.1, f p.2) else p)

/-- A hook invocation on a `StatsRecorder`, tagged with the `Instant::now()`
value `t` the hook observes.  The `tlsDone` success side carries
`protocol_version()` of the stream as the recorder reads it. -/
inductive RecEvent where
  | dnsStart (t : Nat)
  | dnsDone (t : Nat) (nameServers : List String)
      (result : Except String (List SocketAddr × Bool))
  | tcpStart (t : Nat) (dest : SocketAddr)
  | tcpDone (t : Nat) (dest : SocketAddr) (stream : Except String Nat)
  | tlsStart (t : Nat)
  | tlsDone (t : Nat) (stream : Except String (Option String))
  | requestStart (t : Nat)
deriving DecidableEq, Repr

/-- The `Recorder` implementation of `StatsRecorder` (src/stats.rs lines
64-161): the state transition one hook invocation performs on the inner
record. -/
def applyRecEvent (s : StatsRecorderInner) : RecEvent → StatsRecorderInner
  | .dnsStart t => { s with dns_stat := { s.dns_stat with start := some t } }
  | .dnsDone t ns result =>
    { s with
      dns_stat := { s.dns_stat with
        done := some t
        result := some (match result with
          | .ok v => .ok (String.intercalate "," (v.1.map SocketAddr.key))
          | .error e => .error e) }
      dns_name_servers := String.intercalate "," ns
      dns_hit_cache := match result with | .ok v => v.2 | .error _ => false }
  | .tcpStart t dest =>
    { s with
      tcp_stats := some (assocInsert (s.tcp_stats.getD []) dest.key ⟨some t, none, none⟩) }
  | .tcpDone t dest stream =>
    { s with
      tcp_stats := some (assocModify (s.tcp_stats.getD []) dest.key (fun r =>
        { r with
          done := some t
          result := some (match stream with
            | .ok _ => .ok dest.key
            | .error e => .error e) })) }
  | .tlsStart t => { s with tls_stat := some ⟨some t, none, none⟩ }
  | .tlsDone t stream =>
    { s with
      tls_stat := s.tls_stat.map (fun r =>
        { r with
          done := some t
          result := some (match stream with
            | .ok pv => .ok (match pv with
              | some v => v
              | none => "unknown")
            | .error e => .error e) }) }
  | .requestStart t => { s with request_stat := some ⟨some t, none, none⟩ }

/-- The inner state after a sequence of hook invocations on a fresh
`StatsRecorder`. -/
def applyRecEvents (evs : List RecEvent) : StatsRecorderInner :=
  evs.foldl applyRecEvent StatsRecorderInner.init

/-- `StatsRecorder::finish` (src/stats.rs lines 176-263), with `now` the
`Instant::now()` captured on entry; the saturating fallback of
`StatRecord::start()` uses the same base. -/
def StatsRecorder.finish (now : Nat) (inner : StatsRecorderInner) : Stats :=
  { dns_stats :=
      { duration := (inner.dns_stat.done.map
          (fun d => d - inner.dns_stat.startOr now)).getD 0
        extend := match inner.dns_stat.result with
          | some (.ok v) => some v
          | _ => none
        error := match inner.dns_stat.result with
          | some (.error e) => some e
          | _ => none }
    tcp_stats := inner.tcp_stats.map (fun m => m.map (fun p =>
      { duration := (p.2.done.map (fun d => d - p.2.startOr now)).getD 0
        extend := some p.1
        error := match p.2.result with
          | some (.error e) => some e
          | _ => none }))
    tls_stats := inner.tls_stat.map (fun r =>
      { duration := (r.done.map (fun d => d - r.startOr now)).getD 0
        extend := match r.result with
          | some (.ok v) => some v
          | _ => none
        error := match r.result with
          | some (.error e) => some e
          | _ => none })
    request_stats := inner.request_stat.map (fun r =>
      { duration := now - r.startOr now
        extend := match r.result with
          | some (.ok v) => some v
          | _ => none
        error := match r.result with
          | some (.error e) => some e
          | _ => none })
    total_duration := now - inner.dns_stat.startOr now }

end Httptrace

namespace Httptrace

theorem headerGet_insert_self (m : HeaderMap) (k : String) (v : HeaderValue) :
    headerGet (headerInsert m k v) k = some v := by
  simp [headerGet, headerInsert, List.lookup]

theorem lookup_filter_ne (m : HeaderMap) (k k' : String) (h : k' ≠ k) :
    (m.filter (fun p => p.1 != k)).lookup k' = m.lookup k' := by
  induction m with
  | nil => rfl
  | cons a t ih =>
    rcases a with ⟨n, v⟩
    by_cases hak : n = k
    · subst hak
      have h1 : (n != n) = false := by simp
      have h2 : (k' == n) = false := by simpa using h
      simp [List.filter_cons, List.lookup, h1, h2, ih]
    · have h1 : (n != k) = true := by simpa using hak
      by_cases hk'a : k' = n
      · subst hk'a
        simp [List.filter_cons, List.lookup, h1]
      · have h2 : (k' == n) = false := by simpa using hk'a
        simp [List.filter_cons, List.lookup, h1, h2, ih]

theorem headerGet_insert_ne (m : HeaderMap) (k k' : String) (v : HeaderValue)
    (h : k' ≠ k) : headerGet (headerInsert m k v) k' = headerGet m k' := by
  simp only [headerGet, headerInsert, List.lookup]
  have : (k' == k) = false := by simpa using h
  simp [this, lookup_filter_ne m k k' h]

/-- Claim C9: the displayed string of every `Error` variant begins with
exactly the stable external taxonomy string for that kind. -/
theorem error_display_begins_with_taxonomy (e : Error) :
    ∃ rest, e.display = e.taxonomyString ++ rest := by
  cases e <;>
    first
      | exact ⟨" error", by decide⟩
      | exact ⟨"", by decide⟩
      | (rename_i m
         refine ⟨" " ++ m, ?_⟩
         rw [← String.append_assoc]
         rfl)
      | (rename_i m
         refine ⟨": " ++ m, ?_⟩
         rw [← String.append_assoc]
         rfl)

/-- Claim C8: `content_length` of a reusable body is exactly its byte
length; for a streaming body it is the declared exact size hint when the
hint's bounds agree, and `None` otherwise. -/
theorem body_content_length_spec :
    (∀ chunk, (Body.reuseable chunk).contentLength = some chunk.length) ∧
    (∀ hint, hint.upper = some hint.lower →
      (Body.streaming hint).contentLength = some hint.lower) ∧
    (∀ hint, hint.upper ≠ some hint.lower →
      (Body.streaming hint).contentLength = none) := by
  refine ⟨fun _ => rfl, ?_, ?_⟩ <;>
    · intro hint h
      simp [Body.contentLength, SizeHint.exact, h]

theorem body_content_length_spec_witness :
    (SizeHint.mk 5 (some 5)).upper = some (SizeHint.mk 5 (some 5)).lower ∧
    (Body.streaming (SizeHint.mk 5 (some 5))).contentLength = some 5 :=
  ⟨rfl, body_content_length_spec.2.1 (SizeHint.mk 5 (some 5)) rfl⟩

/-- Claim C7: a request whose body is absent or reusable clones to `some`
request with structurally equal method, uri, headers, version, timeout and
body bytes; a request with a streaming body does not clone. -/
theorem request_try_clone_spec (r : Request) :
    ((r.body = none ∨ ∃ c, r.body = some (.reuseable c)) →
      ∃ r2, r.tryClone = some r2 ∧ r2.method = r.method ∧ r2.uri = r.uri ∧
        r2.headers = r.headers ∧ r2.version = r.version ∧
        r2.timeout = r.timeout ∧ r2.body = r.body) ∧
    (∀ h, r.body = some (.streaming h) → r.tryClone = none) := by
  constructor
  · rintro (hb | ⟨c, hb⟩)
    · refine ⟨{ Request.new r.method r.uri with
          timeout := r.timeout, headers := r.headers,
          version := r.version, body := none },
        ?_, rfl, rfl, rfl, rfl, rfl, ?_⟩
      · unfold Request.tryClone
        rw [hb]
      · simp [hb, Request.new, Request.default]
    · refine ⟨{ Request.new r.method r.uri with
          timeout := r.timeout, headers := r.headers,
          version := r.version, body := some (.reuseable c) },
        ?_, rfl, rfl, rfl, rfl, rfl, ?_⟩
      · unfold Request.tryClone
        rw [hb]
        rfl
      · simp [hb, Request.new, Request.default]
  · intro h hb
    simp [Request.tryClone, hb, Body.tryClone]

theorem request_try_clone_spec_witness :
    ({ Request.default with body := some (.reuseable [104, 105]) } : Request).body
        = some (.reuseable [104, 105]) ∧
    ∃ r2, ({ Request.default with body := some (.reuseable [104, 105]) } : Request).tryClone
        = some r2 ∧ r2.body = some (.reuseable [104, 105]) := by
  refine ⟨rfl, ?_⟩
  obtain ⟨r2, h1, -, -, -, -, -, h7⟩ :=
    (request_try_clone_spec { Request.default with body := some (.reuseable [104, 105]) }).1
      (Or.inr ⟨[104, 105], rfl⟩)
  exact ⟨r2, h1, h7⟩

/-- Claim C10: `try_clone` never carries the recorder over: the clone's
recorder is `None` even when the original's is `Some`. -/
theorem try_clone_drops_recorder (r r2 : Request) (h : r.tryClone = some r2) :
    r2.recorder = none := by
  unfold Request.tryClone at h
  split at h
  · split at h
    · cases h
      rfl
    · cases h
  · cases h
    rfl

theorem try_clone_drops_recorder_witness :
    ({ Request.default with recorder := some 1 } : Request).recorder = some 1 ∧
    Request.default.recorder = none :=
  ⟨rfl, try_clone_drops_recorder { Request.default with recorder := some 1 }
    Request.default rfl⟩

/-- Claim C5: with `disable_auto_set_header` unset, a missing `Host` header
is filled with the URI host verbatim and a missing `User-Agent` with the
fixed browser-like literal; headers already supplied are preserved; with
the flag set the request passes through unchanged. -/
theorem auto_set_header_spec (req : Request) (host : String)
    (hhost : req.uri.host = some host)
    (hvalid : parseHeaderValue host = .ok host) :
    (∃ req2, autoSetHeaders false req = .ok req2 ∧
      (headerGet req.headers hostHeader = none →
        headerGet req2.headers hostHeader = some host) ∧
      (∀ v, headerGet req.headers hostHeader = some v →
        headerGet req2.headers hostHeader = some v) ∧
      (headerGet req.headers userAgentHeader = none →
        headerGet req2.headers userAgentHeader = some defaultUserAgent) ∧
      (∀ v, headerGet req.headers userAgentHeader = some v →
        headerGet req2.headers userAgentHeader = some v)) ∧
    autoSetHeaders true req = .ok req := by
  have hne : userAgentHeader ≠ hostHeader := by decide
  refine ⟨?_, rfl⟩
  cases hH : headerGet req.headers hostHeader with
  | none =>
    have hua : headerGet (headerInsert req.headers hostHeader host) userAgentHeader
        = headerGet req.headers userAgentHeader :=
      headerGet_insert_ne _ _ _ _ hne
    cases hU : headerGet req.headers userAgentHeader with
    | none =>
      refine ⟨{ req with
          headers := headerInsert (headerInsert req.headers hostHeader host)
              userAgentHeader defaultUserAgent },
        ?_, ?_, ?_, ?_, ?_⟩
      · simp [autoSetHeaders, hhost, hH, hvalid, hua, hU]
      · intro _
        show headerGet (headerInsert (headerInsert req.headers hostHeader host)
            userAgentHeader defaultUserAgent) hostHeader = some host
        rw [headerGet_insert_ne _ _ _ _ hne.symm, headerGet_insert_self]
      · intro v hv
        cases hv
      · intro _
        exact headerGet_insert_self _ _ _
      · intro v hv
        cases hv
    | some ua =>
      refine ⟨{ req with
          headers := headerInsert req.headers hostHeader host },
        ?_, ?_, ?_, ?_, ?_⟩
      · simp [autoSetHeaders, hhost, hH, hvalid, hua, hU]
      · intro _
        exact headerGet_insert_self _ _ _
      · intro v hv
        cases hv
      · intro hv
        cases hv
      · intro v hv
        cases hv
        show headerGet (headerInsert req.headers hostHeader host)
            userAgentHeader = some ua
        rw [hua, hU]
  | some hv0 =>
    cases hU : headerGet req.headers userAgentHeader with
    | none =>
      refine ⟨{ req with
          headers := headerInsert req.headers userAgentHeader defaultUserAgent },
        ?_, ?_, ?_, ?_, ?_⟩
      · simp [autoSetHeaders, hhost, hH, hU]
      · intro hv
        cases hv
      · intro v hv
        cases hv
        show headerGet (headerInsert req.headers userAgentHeader defaultUserAgent)
            hostHeader = some hv0
        rw [headerGet_insert_ne _ _ _ _ hne.symm, hH]
      · intro _
        exact headerGet_insert_self _ _ _
      · intro v hv
        cases hv
    | some ua =>
      refine ⟨req, ?_, ?_, ?_, ?_, ?_⟩
      · simp [autoSetHeaders, hhost, hH, hU]
      · intro hv
        cases hv
      · intro v hv
        cases hv
        exact hH
      · intro hv
        cases hv
      · intro v hv
        cases hv
        exact hU

theorem auto_set_header_spec_witness :
    ({ Request.default with uri := ⟨some .http, some "a.example", none⟩ } : Request).uri.host
        = some "a.example" ∧
    parseHeaderValue "a.example" = .ok "a.example" ∧
    ∃ req2,
      autoSetHeaders false { Request.default with uri := ⟨some .http, some "a.example", none⟩ }
          = .ok req2 ∧
      headerGet req2.headers hostHeader = some "a.example" ∧
      headerGet req2.headers userAgentHeader = some defaultUserAgent := by
  refine ⟨rfl, rfl, ?_⟩
  obtain ⟨⟨req2, h1, h2, -, h4, -⟩, -⟩ :=
    auto_set_header_spec
      { Request.default with uri := ⟨some .http, some "a.example", none⟩ }
      "a.example" rfl rfl
  exact ⟨req2, h1, h2 rfl, h4 rfl⟩

theorem tcpLoop_error_absorbed (rec : Bool) (events : List TcpEvent) :
    ∀ (addrs : List SocketAddr) (tx : Bool) (e : Error),
      (tcpLoop rec events addrs tx).1 = some (.error e) →
      e = Error.TcpDeadlineExceeded ∨ e = Error.AllTcpConnectFailed := by
  induction events with
  | nil =>
    intro addrs tx e h
    simp [tcpLoop] at h
  | cons ev rest ih =>
    intro addrs tx e h
    cases ev with
    | deadline =>
      simp [tcpLoop] at h
      exact Or.inl h.symm
    | timerFired =>
      cases addrs with
      | nil =>
        simp only [tcpLoop] at h
        exact ih [] false e h
      | cons dest remaining =>
        simp only [tcpLoop] at h
        exact ih remaining tx e h
    | recv dest outcome =>
      cases outcome with
      | ok s => simp [tcpLoop] at h
      | err e2 =>
        simp only [tcpLoop] at h
        exact ih addrs tx e h
    | channelClosed =>
      simp [tcpLoop] at h
      exact Or.inr h.symm

theorem tcpLoop_after_prefix (rec : Bool) (pre : List TcpEvent) :
    ∀ (addrs : List SocketAddr) (tx : Bool) (suffix : List TcpEvent),
      (∀ x ∈ pre, x.isBreaking = false) →
      ∃ addrs2 tx2,
        (tcpLoop rec (pre ++ suffix) addrs tx).1 =
          (tcpLoop rec suffix addrs2 tx2).1 := by
  induction pre with
  | nil =>
    intro addrs tx suffix _
    exact ⟨addrs, tx, rfl⟩
  | cons ev pre ih =>
    intro addrs tx suffix hpre
    have hev := hpre ev (List.mem_cons_self _ _)
    have hrest : ∀ x ∈ pre, x.isBreaking = false :=
      fun x hx => hpre x (List.mem_cons_of_mem _ hx)
    cases ev with
    | deadline => simp [TcpEvent.isBreaking] at hev
    | channelClosed => simp [TcpEvent.isBreaking] at hev
    | timerFired =>
      cases addrs with
      | nil =>
        obtain ⟨a2, t2, h⟩ := ih [] false suffix hrest
        exact ⟨a2, t2, by simpa [tcpLoop] using h⟩
      | cons d rem =>
        obtain ⟨a2, t2, h⟩ := ih rem tx suffix hrest
        exact ⟨a2, t2, by simpa [tcpLoop] using h⟩
    | recv d outcome =>
      cases outcome with
      | ok s => simp [TcpEvent.isBreaking] at hev
      | err er =>
        obtain ⟨a2, t2, h⟩ := ih addrs tx suffix hrest
        exact ⟨a2, t2, by simpa [tcpLoop] using h⟩

theorem tcpLoop_err_hook (pre : List TcpEvent) :
    ∀ (addrs : List SocketAddr) (tx : Bool) (dest : SocketAddr) (er : Error)
      (post : List TcpEvent),
      (∀ x ∈ pre, x.isBreaking = false) →
      Hook.tcpDone dest (.error er.display) ∈
        (tcpLoop true (pre ++ .recv dest (.err er) :: post) addrs tx).2 := by
  induction pre with
  | nil =>
    intro addrs tx dest er post _
    simp [tcpLoop, tcpDoneHook]
  | cons ev pre ih =>
    intro addrs tx dest er post hpre
    have hev := hpre ev (List.mem_cons_self _ _)
    have hrest : ∀ x ∈ pre, x.isBreaking = false :=
      fun x hx => hpre x (List.mem_cons_of_mem _ hx)
    cases ev with
    | deadline => simp [TcpEvent.isBreaking] at hev
    | channelClosed => simp [TcpEvent.isBreaking] at hev
    | timerFired =>
      cases addrs with
      | nil =>
        simpa [tcpLoop] using ih [] false dest er post hrest
      | cons d rem =>
        simp only [tcpLoop, List.cons_append, List.mem_append]
        exact Or.inr (ih rem tx dest er post hrest)
    | recv d outcome =>
      cases outcome with
      | ok s => simp [TcpEvent.isBreaking] at hev
      | err er2 =>
        simp only [tcpLoop, List.cons_append, List.mem_append]
        exact Or.inr (ih addrs tx dest er post hrest)

/-- Claim C1: over any select schedule, the racer run by
`ClientRef::tcp_connect` surfaces only `TcpDeadlineExceeded` (when the
deadline arm fires before any success), `AllTcpConnectFailed` (when the
outcome channel closes before any success), or the first successful
outcome received on the channel; an individual per-attempt connect error
is never the returned error — it is only reported through the recorder's
`on_tcp_done`. -/
theorem tcp_connect_claim (c : ClientRef) (req : Request)
    (addrs : List SocketAddr) (events : List TcpEvent) :
    (∀ e, (c.tcp_connect req addrs events).1 = some (.error e) →
      e = Error.TcpDeadlineExceeded ∨ e = Error.AllTcpConnectFailed) ∧
    (∀ pre post, events = pre ++ TcpEvent.deadline :: post →
      (∀ x ∈ pre, x.isBreaking = false) →
      (c.tcp_connect req addrs events).1 =
        some (.error Error.TcpDeadlineExceeded)) ∧
    (∀ pre post, events = pre ++ TcpEvent.channelClosed :: post →
      (∀ x ∈ pre, x.isBreaking = false) →
      (c.tcp_connect req addrs events).1 =
        some (.error Error.AllTcpConnectFailed)) ∧
    (∀ pre dest s post, events = pre ++ TcpEvent.recv dest (.ok s) :: post →
      (∀ x ∈ pre, x.isBreaking = false) →
      (c.tcp_connect req addrs events).1 = some (.ok s)) ∧
    (∀ pre dest er post,
      events = pre ++ TcpEvent.recv dest (.err er) :: post →
      (∀ x ∈ pre, x.isBreaking = false) →
      req.recorder.isSome = true →
      Hook.tcpDone dest (.error er.display) ∈
        (c.tcp_connect req addrs events).2) := by
  refine ⟨?_, ?_, ?_, ?_, ?_⟩
  · intro e h
    exact tcpLoop_error_absorbed _ events addrs true e h
  · intro pre post hev hpre
    subst hev
    obtain ⟨a2, t2, h⟩ :=
      tcpLoop_after_prefix req.recorder.isSome pre addrs true
        (TcpEvent.deadline :: post) hpre
    exact h.trans rfl
  · intro pre post hev hpre
    subst hev
    obtain ⟨a2, t2, h⟩ :=
      tcpLoop_after_prefix req.recorder.isSome pre addrs true
        (TcpEvent.channelClosed :: post) hpre
    exact h.trans rfl
  · intro pre dest s post hev hpre
    subst hev
    obtain ⟨a2, t2, h⟩ :=
      tcpLoop_after_prefix req.recorder.isSome pre addrs true
        (TcpEvent.recv dest (.ok s) :: post) hpre
    exact h.trans rfl
  · intro pre dest er post hev hpre hrec
    subst hev
    show Hook.tcpDone dest (.error er.display) ∈
      (tcpLoop req.recorder.isSome _ addrs true).2
    rw [hrec]
    exact tcpLoop_err_hook pre addrs true dest er post hpre

theorem tcp_connect_claim_witness :
    ((ClientRef.mk none [] false none false false 1 1 1).tcp_connect
        { Request.default with recorder := some 1 } [SocketAddr.mk 9 80]
        [TcpEvent.timerFired,
         TcpEvent.recv (SocketAddr.mk 9 80) (.err (.Io "refused")),
         TcpEvent.channelClosed]).1 =
      some (.error Error.AllTcpConnectFailed) ∧
    Hook.tcpDone (SocketAddr.mk 9 80) (.error (Error.Io "refused").display) ∈
      ((ClientRef.mk none [] false none false false 1 1 1).tcp_connect
        { Request.default with recorder := some 1 } [SocketAddr.mk 9 80]
        [TcpEvent.timerFired,
         TcpEvent.recv (SocketAddr.mk 9 80) (.err (.Io "refused")),
         TcpEvent.channelClosed]).2 := by
  have h := tcp_connect_claim (ClientRef.mk none [] false none false false 1 1 1)
    { Request.default with recorder := some 1 } [SocketAddr.mk 9 80]
    [TcpEvent.timerFired,
     TcpEvent.recv (SocketAddr.mk 9 80) (.err (.Io "refused")),
     TcpEvent.channelClosed]
  refine ⟨?_, ?_⟩
  · exact h.2.2.1
      [TcpEvent.timerFired, TcpEvent.recv (SocketAddr.mk 9 80) (.err (.Io "refused"))]
      [] rfl (by decide)
  · exact h.2.2.2.2 [TcpEvent.timerFired] (SocketAddr.mk 9 80) (.Io "refused")
      [TcpEvent.channelClosed] rfl (by decide) rfl

/-- Claim C3: resolution with a non-empty override list for the host
returns exactly that list paired with the request's port and
hit_cache = true, independently of the network lookup outcome (no network
input is consulted); an empty override list falls through to the network
lookup; a successful network lookup with zero addresses fails with
`EmptyResolveResult`, and one with addresses returns them with
hit_cache = false. -/
theorem dns_resolve_spec (c : ClientRef) (req : Request) (host : String)
    (hhost : req.uri.host = some host) :
    (∀ ips, c.dns_overrides.lookup host = some ips → ips ≠ [] →
      ∀ lookup, c.dnsResolveInner req lookup =
        .ok (ips.map (fun ip => SocketAddr.mk ip req.port), true)) ∧
    ((c.dns_overrides.lookup host = some [] ∨
        c.dns_overrides.lookup host = none) →
      ∀ lookup : Except Error (List IpAddr),
        (lookup = .ok [] →
          c.dnsResolveInner req lookup = .error .EmptyResolveResult) ∧
        (∀ ips, lookup = .ok ips → ips ≠ [] →
          c.dnsResolveInner req lookup =
            .ok (ips.map (fun ip => SocketAddr.mk ip req.port), false))) := by
  constructor
  · intro ips hov hne lookup
    cases ips with
    | nil => exact absurd rfl hne
    | cons a t => simp [ClientRef.dnsResolveInner, hhost, hov]
  · intro hov lookup
    constructor
    · intro hl
      subst hl
      rcases hov with h | h <;>
        simp [ClientRef.dnsResolveInner, hhost, h]
    · intro ips hl hne
      subst hl
      cases ips with
      | nil => exact absurd rfl hne
      | cons a t =>
        rcases hov with h | h <;>
          simp [ClientRef.dnsResolveInner, hhost, h]

theorem dns_resolve_spec_witness :
    (ClientRef.mk none [("h", [7])] false none false false 1 1 1).dnsResolveInner
        { Request.default with uri := ⟨some .http, some "h", none⟩ }
        (.error .Unknown) = .ok ([SocketAddr.mk 7 80], true) := by
  have h := (dns_resolve_spec
      (ClientRef.mk none [("h", [7])] false none false false 1 1 1)
      { Request.default with uri := ⟨some .http, some "h", none⟩ } "h" rfl).1
      [7] rfl (by decide) (.error .Unknown)
  exact h.trans (by decide)

theorem tcpLoop_no_request_start (rec : Bool) (events : List TcpEvent) :
    ∀ (addrs : List SocketAddr) (tx : Bool),
      Hook.requestStart ∉ (tcpLoop rec events addrs tx).2 := by
  induction events with
  | nil =>
    intro addrs tx
    simp [tcpLoop]
  | cons ev rest ih =>
    intro addrs tx
    cases ev with
    | deadline => simp [tcpLoop]
    | channelClosed => simp [tcpLoop]
    | timerFired =>
      cases addrs with
      | nil => simpa [tcpLoop] using ih [] false
      | cons d rem =>
        simp only [tcpLoop]
        rw [List.mem_append]
        rintro (h | h)
        · revert h
          split <;> simp
        · exact ih rem tx h
    | recv d outcome =>
      cases outcome with
      | ok s =>
        simp only [tcpLoop]
        split <;> simp [tcpDoneHook]
      | err er =>
        simp only [tcpLoop]
        rw [List.mem_append]
        rintro (h | h)
        · revert h
          split <;> simp [tcpDoneHook]
        · exact ih addrs tx h

theorem dns_resolve_no_request_start (c : ClientRef) (req : Request)
    (lookup : Except Error (List IpAddr)) :
    Hook.requestStart ∉ (c.dns_resolve req lookup).2 := by
  unfold ClientRef.dns_resolve
  split
  · simp
  · split <;> simp

theorem tls_handshake_no_request_start (c : ClientRef) (req : Request)
    (tls : Except Error TlsInfo) :
    Hook.requestStart ∉ (c.tls_handshake req tls).2 := by
  unfold ClientRef.tls_handshake
  split <;> simp

/-- Claim C2 (divergence): `ClientRef::execute` never fires the
`on_request_start` hook — the trace any execution produces consists of DNS,
TCP and TLS hooks only, although the `Recorder` contract promises
`on_request_start` immediately before the HTTP frames are exchanged. -/
theorem execute_never_fires_request_start (c : ClientRef) (req : Request)
    (env : Env) : Hook.requestStart ∉ (c.execute req env).2 := by
  have hdns := dns_resolve_no_request_start c req env.lookup
  rcases hd : c.dns_resolve req env.lookup with ⟨dnsRet, dnsHooks⟩
  rw [hd] at hdns
  have hdns2 : Hook.requestStart ∉ dnsHooks := hdns
  cases dnsRet with
  | error e => simpa [ClientRef.execute, hd] using hdns2
  | ok v =>
    rcases v with ⟨addrs, flag⟩
    have htcp : Hook.requestStart ∉ (c.tcp_connect req addrs env.tcpEvents).2 :=
      tcpLoop_no_request_start req.recorder.isSome env.tcpEvents addrs true
    rcases ht : c.tcp_connect req addrs env.tcpEvents with ⟨tcpRet, tcpHooks⟩
    rw [ht] at htcp
    have htcp2 : Hook.requestStart ∉ tcpHooks := htcp
    cases tcpRet with
    | none =>
      simp [ClientRef.execute, hd, ht, List.mem_append, not_or]
      exact ⟨hdns2, htcp2⟩
    | some res =>
      cases res with
      | error e =>
        simp [ClientRef.execute, hd, ht, List.mem_append, not_or]
        exact ⟨hdns2, htcp2⟩
      | ok stream =>
        rcases ha : autoSetHeaders c.disable_auto_set_header req with e2 | req2
        · simp [ClientRef.execute, hd, ht, ha, List.mem_append, not_or]
          exact ⟨hdns2, htcp2⟩
        · by_cases hs : req.uri.scheme = some Scheme.https
          · have htls : Hook.requestStart ∉ (c.tls_handshake req2 env.tls).2 :=
              tls_handshake_no_request_start c req2 env.tls
            rcases htl : c.tls_handshake req2 env.tls with ⟨tlsRet, tlsHooks⟩
            rw [htl] at htls
            have htls2 : Hook.requestStart ∉ tlsHooks := htls
            cases tlsRet with
            | error e =>
              simp [ClientRef.execute, hd, ht, ha, hs, htl, List.mem_append,
                not_or]
              exact ⟨hdns2, htcp2, htls2⟩
            | ok info =>
              simp [ClientRef.execute, hd, ht, ha, hs, htl, List.mem_append,
                not_or]
              exact ⟨hdns2, htcp2, htls2⟩
          · simp [ClientRef.execute, hd, ht, ha, hs, List.mem_append, not_or]
            exact ⟨hdns2, htcp2⟩

/-- Claim C4: for every execution that completes with a response, the HTTP
version of the response is HTTP/2 exactly when the scheme is HTTPS and the
TLS stream's negotiated ALPN protocol is exactly `h2`; with the scheme
HTTPS and the ALPN absent or any other value it is HTTP/1.1, and with a
non-HTTPS scheme it is HTTP/1.1 directly over TCP. -/
theorem execute_alpn_version (c : ClientRef) (req : Request) (env : Env)
    (resp : Response)
    (hex : (c.execute req env).1 = some (.ok resp)) :
    (req.uri.scheme ≠ some Scheme.https → resp.version = .http11) ∧
    (∀ info, req.uri.scheme = some Scheme.https → env.tls = .ok info →
      (isH2 info.alpnProtocol = true → resp.version = .http2) ∧
      (isH2 info.alpnProtocol = false → resp.version = .http11)) := by
  rcases hd : c.dns_resolve req env.lookup with ⟨dnsRet, dnsHooks⟩
  cases dnsRet with
  | error e =>
    rw [show (c.execute req env).1 = some (.error e) by
        simp [ClientRef.execute, hd]] at hex
    cases hex
  | ok v =>
    rcases v with ⟨addrs, flag⟩
    rcases ht : c.tcp_connect req addrs env.tcpEvents with ⟨tcpRet, tcpHooks⟩
    cases tcpRet with
    | none =>
      rw [show (c.execute req env).1 = none by
          simp [ClientRef.execute, hd, ht]] at hex
      cases hex
    | some res =>
      cases res with
      | error e =>
        rw [show (c.execute req env).1 = some (.error e) by
            simp [ClientRef.execute, hd, ht]] at hex
        cases hex
      | ok stream =>
        rcases ha : autoSetHeaders c.disable_auto_set_header req with e2 | req2
        · rw [show (c.execute req env).1 = some (.error e2) by
              simp [ClientRef.execute, hd, ht, ha]] at hex
          cases hex
        · by_cases hs : req.uri.scheme = some Scheme.https
          · have h1 : (c.tls_handshake req2 env.tls).1 = env.tls := by
              unfold ClientRef.tls_handshake
              split <;> rfl
            rcases htl : c.tls_handshake req2 env.tls with ⟨tlsRet, tlsHooks⟩
            rw [htl] at h1
            cases tlsRet with
            | error e =>
              rw [show (c.execute req env).1 = some (.error e) by
                  simp [ClientRef.execute, hd, ht, ha, hs, htl]] at hex
              cases hex
            | ok info =>
              rw [show (c.execute req env).1 = some (.ok (tlsSendRequest info)) by
                  simp [ClientRef.execute, hd, ht, ha, hs, htl]] at hex
              cases hex
              constructor
              · intro hns
                exact absurd hs hns
              · intro info2 _ henv
                rw [← h1] at henv
                cases henv
                constructor
                · intro hh2
                  simp [tlsSendRequest, hh2]
                · intro hh2
                  simp [tlsSendRequest, hh2]
          · rw [show (c.execute req env).1 = some (.ok tcpSendH1Request) by
                simp [ClientRef.execute, hd, ht, ha, hs]] at hex
            cases hex
            constructor
            · intro _
              rfl
            · intro info2 hscheme _
              exact absurd hscheme hs

theorem execute_alpn_version_witness :
    ((ClientRef.mk none [("h", [7])] false none false false 1 1 1).execute
        { Request.default with uri := ⟨some .https, some "h", none⟩ }
        (Env.mk (.error .Unknown)
          [TcpEvent.recv (SocketAddr.mk 7 443) (.ok 1)]
          (.ok (TlsInfo.mk (some [104, 50]) (some "TLSv1_3"))))).1 =
      some (.ok (Response.mk .http2)) ∧
    (Response.mk Version.http2).version = .http2 := by
  have hex : ((ClientRef.mk none [("h", [7])] false none false false 1 1 1).execute
      { Request.default with uri := ⟨some .https, some "h", none⟩ }
      (Env.mk (.error .Unknown)
        [TcpEvent.recv (SocketAddr.mk 7 443) (.ok 1)]
        (.ok (TlsInfo.mk (some [104, 50]) (some "TLSv1_3"))))).1 =
      some (.ok (Response.mk .http2)) := by decide
  refine ⟨hex, ?_⟩
  exact ((execute_alpn_version _ _ _ _ hex).2
    (TlsInfo.mk (some [104, 50]) (some "TLSv1_3")) rfl rfl).1 (by decide)

/-- Claim C6: after any sequence of hook invocations on a fresh
`StatsRecorder`, `finish` computes the DNS duration as dns_done − dns_start,
each per-destination TCP duration as that destination's tcp_done −
tcp_start, the TLS duration as tls_done − tls_start, the request duration
as the finish instant − request_start, the total duration as the finish
instant − dns_start, and a DNS/TCP/TLS phase with no recorded done instant
contributes a zero duration. -/
theorem stats_finish_spec (evs : List RecEvent) (now : Nat) :
    (∀ s d, (applyRecEvents evs).dns_stat.start = some s →
      (applyRecEvents evs).dns_stat.done = some d →
      (StatsRecorder.finish now (applyRecEvents evs)).dns_stats.duration
        = d - s) ∧
    ((applyRecEvents evs).dns_stat.done = none →
      (StatsRecorder.finish now (applyRecEvents evs)).dns_stats.duration
        = 0) ∧
    (∀ m k v, (applyRecEvents evs).tcp_stats = some m → (k, v) ∈ m →
      (∀ s d, v.start = some s → v.done = some d →
        ∃ st, st ∈ ((StatsRecorder.finish now
              (applyRecEvents evs)).tcp_stats.getD []) ∧
          st.extend = some k ∧ st.duration = d - s) ∧
      (v.done = none →
        ∃ st, st ∈ ((StatsRecorder.finish now
              (applyRecEvents evs)).tcp_stats.getD []) ∧
          st.extend = some k ∧ st.duration = 0)) ∧
    (∀ r, (applyRecEvents evs).tls_stat = some r →
      (∀ s d, r.start = some s → r.done = some d →
        ∃ st, (StatsRecorder.finish now (applyRecEvents evs)).tls_stats
            = some st ∧ st.duration = d - s) ∧
      (r.done = none →
        ∃ st, (StatsRecorder.finish now (applyRecEvents evs)).tls_stats
            = some st ∧ st.duration = 0)) ∧
    (∀ r s, (applyRecEvents evs).request_stat = some r → r.start = some s →
      ∃ st, (StatsRecorder.finish now (applyRecEvents evs)).request_stats
          = some st ∧ st.duration = now - s) ∧
    (∀ s, (applyRecEvents evs).dns_stat.start = some s →
      (StatsRecorder.finish now (applyRecEvents evs)).total_duration
        = now - s) := by
  refine ⟨?_, ?_, ?_, ?_, ?_, ?_⟩
  · intro s d h1 h2
    simp [StatsRecorder.finish, h1, h2, StatRecord.startOr]
  · intro h
    simp [StatsRecorder.finish, h]
  · intro m k v hm hmem
    have hmain : ((StatsRecorder.finish now
        (applyRecEvents evs)).tcp_stats.getD [])
        = m.map (fun p =>
          { duration := (p.2.done.map (fun dd => dd - p.2.startOr now)).getD 0
            extend := some p.1
            error := match p.2.result with
              | some (.error e) => some e
              | _ => none }) := by
      simp [StatsRecorder.finish, hm]
    constructor
    · intro s d hs hd
      refine ⟨{ duration := (v.done.map (fun dd => dd - v.startOr now)).getD 0
                extend := some k
                error := match v.result with
                  | some (.error e) => some e
                  | _ => none },
        ?_, rfl, ?_⟩
      · rw [hmain]
        exact List.mem_map_of_mem _ hmem
      · simp [hd, hs, StatRecord.startOr]
    · intro hd
      refine ⟨{ duration := (v.done.map (fun dd => dd - v.startOr now)).getD 0
                extend := some k
                error := match v.result with
                  | some (.error e) => some e
                  | _ => none },
        ?_, rfl, ?_⟩
      · rw [hmain]
        exact List.mem_map_of_mem _ hmem
      · simp [hd]
  · intro r hr
    constructor
    · intro s d hs hd
      refine ⟨{ duration := (r.done.map (fun dd => dd - r.startOr now)).getD 0
                extend := match r.result with
                  | some (.ok v) => some v
                  | _ => none
                error := match r.result with
                  | some (.error e) => some e
                  | _ => none },
        ?_, ?_⟩
      · simp [StatsRecorder.finish, hr]
      · simp [hd, hs, StatRecord.startOr]
    · intro hd
      refine ⟨{ duration := (r.done.map (fun dd => dd - r.startOr now)).getD 0
                extend := match r.result with
                  | some (.ok v) => some v
                  | _ => none
                error := match r.result with
                  | some (.error e) => some e
                  | _ => none },
        ?_, ?_⟩
      · simp [StatsRecorder.finish, hr]
      · simp [hd]
  · intro r s hr hs
    refine ⟨{ duration := now - r.startOr now
              extend := match r.result with
                | some (.ok v) => some v
                | _ => none
              error := match r.result with
                | some (.error e) => some e
                | _ => none },
      ?_, ?_⟩
    · simp [StatsRecorder.finish, hr]
    · simp [hs, StatRecord.startOr]
  · intro s h
    simp [StatsRecorder.finish, h, StatRecord.startOr]

theorem stats_finish_spec_witness :
    (StatsRecorder.finish 20 (applyRecEvents
        [.dnsStart 1, .dnsDone 5 [] (.error "boom"),
         .tcpStart 2 (SocketAddr.mk 9 80),
         .tcpDone 7 (SocketAddr.mk 9 80) (.error "x"),
         .requestStart 8])).dns_stats.duration = 4 ∧
    (∃ st, st ∈ ((StatsRecorder.finish 20 (applyRecEvents
        [.dnsStart 1, .dnsDone 5 [] (.error "boom"),
         .tcpStart 2 (SocketAddr.mk 9 80),
         .tcpDone 7 (SocketAddr.mk 9 80) (.error "x"),
         .requestStart 8])).tcp_stats.getD []) ∧
      st.extend = some "9:80" ∧ st.duration = 5) ∧
    (∃ st, (StatsRecorder.finish 20 (applyRecEvents
        [.dnsStart 1, .dnsDone 5 [] (.error "boom"),
         .tcpStart 2 (SocketAddr.mk 9 80),
         .tcpDone 7 (SocketAddr.mk 9 80) (.error "x"),
         .requestStart 8])).request_stats = some st ∧ st.duration = 12) ∧
    (StatsRecorder.finish 20 (applyRecEvents
        [.dnsStart 1, .dnsDone 5 [] (.error "boom"),
         .tcpStart 2 (SocketAddr.mk 9 80),
         .tcpDone 7 (SocketAddr.mk 9 80) (.error "x"),
         .requestStart 8])).total_duration = 19 := by
  have h := stats_finish_spec
    [.dnsStart 1, .dnsDone 5 [] (.error "boom"),
     .tcpStart 2 (SocketAddr.mk 9 80),
     .tcpDone 7 (SocketAddr.mk 9 80) (.error "x"),
     .requestStart 8] 20
  refine ⟨h.1 1 5 (by decide) (by decide), ?_, ?_, h.2.2.2.2.2 1 (by decide)⟩
  · exact (h.2.2.1 [("9:80", StatRecord.mk (some 2) (some 7)
        (some (.error "x")))] "9:80"
      (StatRecord.mk (some 2) (some 7) (some (.error "x")))
      (by decide) (by decide)).1 2 7 rfl rfl
  · exact h.2.2.2.2.1 (StatRecord.mk (some 8) none none) 8 (by decide) rfl

end Httptrace
